import Mathlib

/-
Verification of the planning-poker WebSocket server (server.js) against its
natural-language specification.  The server is embedded shallowly: the global
mutable maps (`rooms`, `players`) become an explicit `ServerState` record, the
per-connection socket is identified by a natural number, and each message
handler becomes a pure function from state and message to the new state plus
the list of emitted messages.  Nondeterministic inputs (uuid generation,
random room codes, `Date.now()`) are passed as explicit parameters.
-/

namespace PlanningPoker

/-! ## Configuration constants (server.js lines 20-28) -/

def RATE_LIMIT_WINDOW_MS : Nat := 5000

def RATE_LIMIT_MAX_MESSAGES : Nat := 20

def MAX_NAME_LENGTH : Nat := 20

def MAX_ROOMS : Nat := 1000

def MAX_PLAYERS_PER_ROOM : Nat := 50

/-! ## Rate limiting (`checkRateLimit`, server.js lines 65-83)

The JS code stores `ws.messageTimestamps`, filters out entries older than the
window, rejects when the filtered list already holds `RATE_LIMIT_MAX_MESSAGES`
timestamps, and otherwise pushes the current time.  Timestamps are modelled as
naturals (milliseconds); `now - t` uses truncated subtraction, which agrees
with the JS comparison `now - t < WINDOW` whenever `t ≤ now`, and also counts
future-dated timestamps as inside the window exactly as JS does. -/

def checkRateLimit (now : Nat) (tss : List Nat) : Bool × List Nat :=
  let kept := tss.filter (fun t => now - t < RATE_LIMIT_WINDOW_MS)
  if RATE_LIMIT_MAX_MESSAGES ≤ kept.length then (false, kept)
  else (true, kept ++ [now])

/-- Run the rate limiter over a sequence of message arrival times, starting
from a given timestamp list; returns the accept/reject decision for each
message (in order) and the final timestamp list.  This models the per-message
gate in the `message` event handler (server.js lines 192-201): a `false`
decision corresponds to the rate-limit error reply being sent and the message
being dropped, with the connection left open. -/
def runLimiter : List Nat → List Nat → List Bool × List Nat
  | tss, [] => ([], tss)
  | tss, now :: rest =>
    let r := checkRateLimit now tss
    let rs := runLimiter r.2 rest
    (r.1 :: rs.1, rs.2)

/-! ## Name sanitisation (`sanitizeName`, server.js lines 86-97)

`sanitizeName` trims the input, deletes every match of the global regex
`<[^>]*>`, deletes the characters `<>"`, backtick, apostrophe, `&;()[]` and
braces, truncates to `MAX_NAME_LENGTH` units and rejects empty results.
Non-string input (and the falsy empty string) is rejected up front; we model
the argument as `Option String`, `none` standing for a missing or non-string
value. -/

def isJsWhitespace (c : Char) : Bool :=
  c = ' ' || c = '\t' || c = '\n' || c = '\r' || c.toNat = 11 || c.toNat = 12 || c.toNat = 160

/-- JS `String.prototype.trim`: drop whitespace from both ends. -/
def jsTrim (l : List Char) : List Char :=
  ((l.dropWhile isJsWhitespace).reverse.dropWhile isJsWhitespace).reverse

/-- Scan for the first `>`; on success return the remainder after it.  This is
how the regex engine closes a `<[^>]*>` match: the character class excludes
`>`, so the greedy run always stops at the first `>` after the opening `<`. -/
def splitAtGt : List Char → Option (List Char)
  | [] => none
  | c :: rest => if c = '>' then some rest else splitAtGt rest

/-- One pass of the global regex replace `.replace(/<[^>]*>/g, '')`: from each
`<` the match extends to the first following `>`; if no `>` remains the `<`
and everything after it is kept verbatim.  Structured with explicit fuel so
that the definition is a plain structural recursion; `fuel ≥ length` always
suffices because each recursive call strictly shrinks the list. -/
def stripTagsAux : Nat → List Char → List Char
  | 0, l => l
  | _, [] => []
  | fuel + 1, c :: rest =>
    if c = '<' then
      match splitAtGt rest with
      | some rest2 => stripTagsAux fuel rest2
      | none => c :: rest
    else c :: stripTagsAux fuel rest

def stripTags (l : List Char) : List Char :=
  stripTagsAux l.length l

/-- The character blacklist of `sanitizeName`: `< > " ' `` ` `` & ; ( ) [ ] { }`
(the quote, backtick, bracket and brace characters are written by code point
to keep the source readable). -/
def DANGEROUS_CHARS : List Char :=
  ['<', '>', Char.ofNat 34, Char.ofNat 39, Char.ofNat 96, '&', ';',
   Char.ofNat 40, Char.ofNat 41, Char.ofNat 91, Char.ofNat 93,
   Char.ofNat 123, Char.ofNat 125]

/-- The pure pipeline inside `sanitizeName`: trim, strip tag-like substrings,
delete blacklisted characters, truncate to `MAX_NAME_LENGTH`. -/
def sanitizePipeline (s : String) : String :=
  String.mk
    (((stripTags (jsTrim s.toList)).filter
        (fun c => ¬ DANGEROUS_CHARS.contains c)).take MAX_NAME_LENGTH)

def sanitizeName : Option String → Option String
  | none => none
  | some s =>
    if s = "" then none
    else
      let r := sanitizePipeline s
      if 1 ≤ r.length then some r else none

/-! ## Card and room-code validation (server.js lines 100-108, 144-145) -/

def CARD_VALUES : List String :=
  ["0", "½", "1", "2", "3", "5", "8", "13", "21", "?", "☕"]

/-- `isValidCard`: true iff the value is null or a member of `CARD_VALUES`.
A non-string message field can never equal a member of the whitelist, so
modelling the field as `Option String` loses nothing. -/
def isValidCard : Option String → Bool
  | none => true
  | some v => CARD_VALUES.contains v

def isRoomCodeChar (c : Char) : Bool :=
  (65 ≤ c.toNat && c.toNat ≤ 90) || (48 ≤ c.toNat && c.toNat ≤ 57)

def jsToUpper (s : String) : String :=
  String.mk (s.toList.map Char.toUpper)

/-- `isValidRoomCode`: non-empty string matching `^[A-Z0-9]{4}$` after
upper-casing. -/
def isValidRoomCode : Option String → Bool
  | none => false
  | some code =>
    if code = "" then false
    else
      let u := jsToUpper code
      u.toList.length = 4 && u.toList.all isRoomCodeChar

/-! ## Room-code generation (`generateRoomCode`, server.js lines 135-142)

Each attempt draws four symbols from the 32-character alphabet below using
`Math.floor(Math.random() * chars.length)`; the randomness is modelled as a
stream of naturals reduced mod the alphabet size.  The JS function retries
(recursively) whenever the candidate collides with a live room code; the
recursion is modelled with explicit fuel, each retry consuming the next four
entries of the stream. -/

def ROOM_CODE_CHARS : List Char :=
  "ABCDEFGHJKLMNPQRSTUVWXYZ23456789".toList

def codeFromRandoms (rand : Nat → Nat) : String :=
  String.mk
    ((List.range 4).map
      (fun i => ROOM_CODE_CHARS.getD (rand i % ROOM_CODE_CHARS.length) 'A'))

def generateRoomCode (liveCodes : List String) (rand : Nat → Nat) : Nat → Option String
  | 0 => none
  | fuel + 1 =>
    let code := codeFromRandoms rand
    if liveCodes.contains code then
      generateRoomCode liveCodes (fun i => rand (i + 4)) fuel
    else some code

/-! ## Data model (server.js lines 131-132, 269-282)

A live connection is identified by a natural number.  JS `Map`s are embedded
as insertion-ordered association lists: `mapGet` finds the first binding,
`mapSet` updates an existing binding in place (preserving its position, as
`Map.prototype.set` does) or appends a new one, and `mapDelete` removes the
binding. -/

inductive RoomPhase where
  | waiting
  | voting
  | revealed
deriving DecidableEq

structure Player where
  id : Nat
  name : String
  isHost : Bool
  selectedCard : Option String
  roomCode : String
deriving DecidableEq

structure Room where
  state : RoomPhase
  players : List (Nat × Player)
deriving DecidableEq

structure ServerState where
  rooms : List (String × Room)
  players : List (Nat × Player)
deriving DecidableEq

def mapGet {κ α : Type} [DecidableEq κ] : List (κ × α) → κ → Option α
  | [], _ => none
  | e :: rest, k => if e.1 = k then some e.2 else mapGet rest k

def mapSet {κ α : Type} [DecidableEq κ] : List (κ × α) → κ → α → List (κ × α)
  | [], k, v => [(k, v)]
  | e :: rest, k, v => if e.1 = k then (k, v) :: rest else e :: mapSet rest k v

def mapDelete {κ α : Type} [DecidableEq κ] : List (κ × α) → κ → List (κ × α)
  | [], _ => []
  | e :: rest, k => if e.1 = k then rest else e :: mapDelete rest k

/-- Number of players of a room whose `isHost` flag is set. -/
def hostCount (room : Room) : Nat :=
  (room.players.filter (fun e => e.2.isHost)).length

/-! ## Snapshot construction (`getRoomState`, server.js lines 161-182) -/

structure PlayerView where
  id : Nat
  name : String
  isHost : Bool
  hasSelected : Bool
  card : Option String
deriving DecidableEq

structure RoomSnapshot where
  roomCode : String
  state : RoomPhase
  players : List PlayerView
  cardValues : List String
deriving DecidableEq

/-- Per-player entry of a snapshot: `hasSelected` reports whether a card is
stored; `card` discloses the stored value only when votes were requested or
the room is revealed, and is nulled otherwise. -/
def playerView (roomPhase : RoomPhase) (includeVotes : Bool) (p : Player) : PlayerView :=
  { id := p.id
    name := p.name
    isHost := p.isHost
    hasSelected := p.selectedCard.isSome
    card := if includeVotes || roomPhase = RoomPhase.revealed then p.selectedCard else none }

def getRoomState (st : ServerState) (roomCode : String) (includeVotes : Bool) :
    Option RoomSnapshot :=
  match mapGet st.rooms roomCode with
  | none => none
  | some room =>
    some
      { roomCode := roomCode
        state := room.state
        players := room.players.map (fun e => playerView room.state includeVotes e.2)
        cardValues := CARD_VALUES }

/-! ## Messages emitted by the server

Only the parts of the wire messages that the claims talk about are recorded;
whether a message is a direct reply or a broadcast is determined by its
constructor (exactly as in the source, where e.g. `player_selected` is always
broadcast and `error` always a direct reply). -/

inductive OutMsg where
  | errorMsg (text : String)
  | roomCreated (roomCode : String) (playerId : Nat) (roomState : Option RoomSnapshot)
  | joinedRoom (roomCode : String) (playerId : Nat) (roomState : Option RoomSnapshot)
  | playerJoined (playerId : Nat) (name : String) (roomState : Option RoomSnapshot)
  | roundStarted (roomState : Option RoomSnapshot)
  | playerSelected (playerId : Nat) (roomState : Option RoomSnapshot)
  | cardsRevealed (revealOrder : List (Nat × String × Option String))
      (roomState : Option RoomSnapshot)
  | roundReset (roomState : Option RoomSnapshot)
  | revealClosed
  | becameHost
  | playerLeft (playerId : Nat) (roomState : Option RoomSnapshot)
deriving DecidableEq

/-! ## Message handlers (`handleMessage`, server.js lines 246-482)

Each case of the `switch` becomes one function from the server state (plus
the sending connection and the message fields) to the new state and the list
of emitted messages.  Fresh identifiers (room code from `generateRoomCode`,
uuid) are explicit parameters.  In the JS source the player object stored in
the global `players` map and the one stored in `room.players` are the same
object; the embedding therefore updates both maps wherever the source mutates
that shared object. -/

def handleCreateRoom (st : ServerState) (ws : Nat) (rawName : Option String)
    (freshCode : String) (freshId : Nat) : ServerState × List OutMsg :=
  if MAX_ROOMS ≤ st.rooms.length then
    (st, [OutMsg.errorMsg "Server is at capacity. Please try again later."])
  else
    match sanitizeName rawName with
    | none => (st, [OutMsg.errorMsg "Valid name is required (1-20 characters)"])
    | some name =>
      let player : Player :=
        { id := freshId, name := name, isHost := true, selectedCard := none,
          roomCode := freshCode }
      let room : Room := { state := RoomPhase.waiting, players := [(ws, player)] }
      let st2 : ServerState :=
        { rooms := mapSet st.rooms freshCode room, players := mapSet st.players ws player }
      (st2, [OutMsg.roomCreated freshCode freshId (getRoomState st2 freshCode false)])

def handleJoinRoom (st : ServerState) (ws : Nat) (rawRoomCode : Option String)
    (rawName : Option String) (freshId : Nat) : ServerState × List OutMsg :=
  let roomCode? := rawRoomCode.map jsToUpper
  if isValidRoomCode roomCode? = false then
    (st, [OutMsg.errorMsg "Invalid room code format"])
  else
    let code := roomCode?.getD ""
    match mapGet st.rooms code with
    | none => (st, [OutMsg.errorMsg "Room not found"])
    | some room =>
      if MAX_PLAYERS_PER_ROOM ≤ room.players.length then
        (st, [OutMsg.errorMsg "Room is full"])
      else
        match sanitizeName rawName with
        | none => (st, [OutMsg.errorMsg "Valid name is required (1-20 characters)"])
        | some name =>
          let player : Player :=
            { id := freshId, name := name, isHost := false, selectedCard := none,
              roomCode := code }
          let room2 : Room := { room with players := mapSet room.players ws player }
          let st2 : ServerState :=
            { rooms := mapSet st.rooms code room2, players := mapSet st.players ws player }
          (st2,
            [OutMsg.joinedRoom code freshId (getRoomState st2 code false),
             OutMsg.playerJoined freshId name (getRoomState st2 code false)])

def handleStartRound (st : ServerState) (ws : Nat) : ServerState × List OutMsg :=
  match mapGet st.players ws with
  | none => (st, [])
  | some player =>
    if player.isHost = false then (st, [])
    else
      match mapGet st.rooms player.roomCode with
      | none => (st, [])
      | some room =>
        let room2 : Room :=
          { state := RoomPhase.voting
            players := room.players.map (fun e => (e.1, { e.2 with selectedCard := none })) }
        let st2 : ServerState := { st with rooms := mapSet st.rooms player.roomCode room2 }
        (st2, [OutMsg.roundStarted (getRoomState st2 player.roomCode false)])

def handleSelectCard (st : ServerState) (ws : Nat) (card : Option String) :
    ServerState × List OutMsg :=
  match mapGet st.players ws with
  | none => (st, [])
  | some player =>
    match mapGet st.rooms player.roomCode with
    | none => (st, [])
    | some room =>
      if room.state ≠ RoomPhase.voting then (st, [])
      else if isValidCard card = false then
        (st, [OutMsg.errorMsg "Invalid card value"])
      else
        let player2 : Player := { player with selectedCard := card }
        let room2 : Room := { room with players := mapSet room.players ws player2 }
        let st2 : ServerState :=
          { rooms := mapSet st.rooms player.roomCode room2
            players := mapSet st.players ws player2 }
        (st2, [OutMsg.playerSelected player.id (getRoomState st2 player.roomCode false)])

def handleRevealCards (st : ServerState) (ws : Nat) : ServerState × List OutMsg :=
  match mapGet st.players ws with
  | none => (st, [])
  | some player =>
    if player.isHost = false then (st, [])
    else
      match mapGet st.rooms player.roomCode with
      | none => (st, [])
      | some room =>
        let room2 : Room := { room with state := RoomPhase.revealed }
        let st2 : ServerState := { st with rooms := mapSet st.rooms player.roomCode room2 }
        let revealOrder := room.players.map (fun e => (e.2.id, e.2.name, e.2.selectedCard))
        (st2, [OutMsg.cardsRevealed revealOrder (getRoomState st2 player.roomCode true)])

def handleResetRound (st : ServerState) (ws : Nat) : ServerState × List OutMsg :=
  match mapGet st.players ws with
  | none => (st, [])
  | some player =>
    if player.isHost = false then (st, [])
    else
      match mapGet st.rooms player.roomCode with
      | none => (st, [])
      | some room =>
        let room2 : Room :=
          { state := RoomPhase.waiting
            players := room.players.map (fun e => (e.1, { e.2 with selectedCard := none })) }
        let st2 : ServerState := { st with rooms := mapSet st.rooms player.roomCode room2 }
        (st2, [OutMsg.roundReset (getRoomState st2 player.roomCode false)])

def handleCloseReveal (st : ServerState) (ws : Nat) : ServerState × List OutMsg :=
  match mapGet st.players ws with
  | none => (st, [])
  | some player =>
    if player.isHost = false then (st, [])
    else (st, [OutMsg.revealClosed])

/-- The `ws.on('close')` handler (server.js lines 215-243): remove the player
from its room, hand host authority to the first remaining member when the
host left a still non-empty room, delete the room when it became empty, and
always drop the connection from the global player map. -/
def handleDisconnect (st : ServerState) (ws : Nat) : ServerState × List OutMsg :=
  match mapGet st.players ws with
  | none => (st, [])
  | some player =>
    match mapGet st.rooms player.roomCode with
    | none => ({ st with players := mapDelete st.players ws }, [])
    | some room =>
      let remaining := mapDelete room.players ws
      let reassigned :=
        if player.isHost = true ∧ 0 < remaining.length then
          match remaining with
          | [] => (remaining, ([] : List OutMsg))
          | (w0, p0) :: rest => ((w0, { p0 with isHost := true }) :: rest, [OutMsg.becameHost])
        else (remaining, [])
      if reassigned.1.length = 0 then
        ({ rooms := mapDelete st.rooms player.roomCode, players := mapDelete st.players ws },
          reassigned.2)
      else
        let room2 : Room := { room with players := reassigned.1 }
        let st2 : ServerState :=
          { rooms := mapSet st.rooms player.roomCode room2, players := mapDelete st.players ws }
        (st2,
          reassigned.2 ++
            [OutMsg.playerLeft player.id (getRoomState st2 player.roomCode false)])

/-- Inbound client messages (the `type` discriminator plus the fields the
handlers read).  Unknown types fall through the `switch` unhandled. -/
inductive ClientMsg where
  | createRoom (name : Option String)
  | joinRoom (roomCode : Option String) (name : Option String)
  | startRound
  | selectCard (card : Option String)
  | revealCards
  | resetRound
  | closeReveal
  | unknown
deriving DecidableEq

def handleMessage (st : ServerState) (ws : Nat) (msg : ClientMsg)
    (freshCode : String) (freshId : Nat) : ServerState × List OutMsg :=
  match msg with
  | ClientMsg.createRoom name => handleCreateRoom st ws name freshCode freshId
  | ClientMsg.joinRoom roomCode name => handleJoinRoom st ws roomCode name freshId
  | ClientMsg.startRound => handleStartRound st ws
  | ClientMsg.selectCard card => handleSelectCard st ws card
  | ClientMsg.revealCards => handleRevealCards st ws
  | ClientMsg.resetRound => handleResetRound st ws
  | ClientMsg.closeReveal => handleCloseReveal st ws
  | ClientMsg.unknown => (st, [])

/-! ## Basic facts about the association-list maps -/

theorem mapGet_mapSet_self {κ α : Type} [DecidableEq κ] (m : List (κ × α)) (k : κ) (v : α) :
    mapGet (mapSet m k v) k = some v := by
  induction m with
  | nil => simp [mapSet, mapGet]
  | cons e rest ih =>
    by_cases h : e.1 = k
    · simp [mapSet, mapGet, h]
    · simp [mapSet, mapGet, h, ih]

theorem mem_mapSet_self {κ α : Type} [DecidableEq κ] (m : List (κ × α)) (k : κ) (v : α) :
    (k, v) ∈ mapSet m k v := by
  induction m with
  | nil => simp [mapSet]
  | cons e rest ih =>
    by_cases h : e.1 = k
    · simp [mapSet, h]
    · simp [mapSet, h, ih]

/-! ## Snapshot secrecy helpers -/

theorem getRoomState_eq (st : ServerState) (code : String) (room : Room) (iv : Bool)
    (hr : mapGet st.rooms code = some room) :
    getRoomState st code iv =
      some
        { roomCode := code
          state := room.state
          players := room.players.map (fun e => playerView room.state iv e.2)
          cardValues := CARD_VALUES } := by
  unfold getRoomState
  rw [hr]

theorem playerView_card_none (phase : RoomPhase) (p : Player)
    (h : phase ≠ RoomPhase.revealed) : (playerView phase false p).card = none := by
  simp [playerView, h]

theorem cards_hidden_of_not_revealed (room : Room) (h : room.state ≠ RoomPhase.revealed) :
    ((room.players.map (fun e => playerView room.state false e.2)).all
      (fun v => v.card == none)) = true := by
  rw [List.all_eq_true]
  intro v hv
  rcases List.mem_map.mp hv with ⟨e, _, rfl⟩
  simp [playerView_card_none room.state e.2 h]

/-! ## Claim theorems -/

/-- Claim C1: for every room whose state is not `revealed`, every snapshot
built by `getRoomState` without the vote-visibility flag has the `card` field
equal to `none` for every player, regardless of the stored `selectedCard`; so
before `reveal_cards` no member receives another member's selection. -/
theorem C1_reveal_secrecy (st : ServerState) (code : String) (room : Room)
    (hroom : mapGet st.rooms code = some room)
    (hstate : room.state ≠ RoomPhase.revealed) :
    (getRoomState st code false).map
      (fun s => s.players.all (fun v => v.card == none)) = some true := by
  rw [getRoomState_eq st code room false hroom]
  simp [cards_hidden_of_not_revealed room hstate]

def pW1 : Player :=
  { id := 10, name := "Ann", isHost := true, selectedCard := some "5", roomCode := "ABCD" }

def pW2 : Player :=
  { id := 11, name := "Bob", isHost := false, selectedCard := some "8", roomCode := "ABCD" }

def roomW1 : Room := { state := RoomPhase.voting, players := [(1, pW1), (2, pW2)] }

def stW1 : ServerState := { rooms := [("ABCD", roomW1)], players := [(1, pW1), (2, pW2)] }

/-- Witness for C1 at a concrete voting room where both players hold cards. -/
theorem C1_reveal_secrecy_witness :
    (getRoomState stW1 "ABCD" false).map
      (fun s => s.players.all (fun v => v.card == none)) = some true :=
  C1_reveal_secrecy stW1 "ABCD" roomW1 rfl (by decide)

/-- Claim C2 concerns the single-host invariant: in every reachable state,
every non-empty room has exactly one player with `isHost = true`.  The code
violates the invariant: a connection that already hosts a room and sends
`join_room` with its own room code has its map entry replaced (same key in
`room.players`) by a fresh non-host player, leaving the still non-empty room
with zero hosts.  This theorem evaluates the embedded handlers on that
failing input: after `create_room` by connection 1 the room holds one player
and one host; after the same connection rejoins its own room the room still
holds one player but no host. -/
theorem C2_single_host_violation :
    (mapGet (handleCreateRoom { rooms := [], players := [] } 1 (some "Ann") "ABCD" 10).1.rooms
        "ABCD").map (fun r => (r.players.length, hostCount r)) = some (1, 1) ∧
    (mapGet ((handleJoinRoom
        (handleCreateRoom { rooms := [], players := [] } 1 (some "Ann") "ABCD" 10).1
        1 (some "ABCD") (some "Bob") 11).1).rooms "ABCD").map
      (fun r => (r.players.length, hostCount r)) = some (1, 0) := by decide

def pC3 : Player :=
  { id := 10, name := "Ann", isHost := true, selectedCard := none, roomCode := "ABCD" }

def rC3 : Room := { state := RoomPhase.waiting, players := [(1, pC3)] }

def stC3 : ServerState := { rooms := [("ABCD", rC3)], players := [(1, pC3)] }

def rC3v : Room := { state := RoomPhase.voting, players := [(1, pC3)] }

def stC3v : ServerState := { rooms := [("ABCD", rC3v)], players := [(1, pC3)] }

/-- Counterexample to claim C3 as stated: in a room whose state is `waiting`,
a `select_card` message is dropped with NO reply at all — the handler returns
before reaching the error-sending code — whereas the claim says an error
reply is produced.  Likewise, an out-of-whitelist card value sent while the
room is not in `voting` state produces no typed error either. -/
theorem C3_counterexample :
    rC3.state ≠ RoomPhase.voting ∧
    handleSelectCard stC3 1 (some "5") = (stC3, []) ∧
    isValidCard (some "99") = false ∧
    handleSelectCard stC3 1 (some "99") = (stC3, []) := by decide

/-- Claim C3 (amended): a `select_card` from a player whose room is not in
`voting` state is a silent no-op — the state is unchanged and no message at
all is emitted, in particular no error reply; a `select_card` with a card
value outside the whitelist while the room is in `voting` state produces
exactly the typed `Invalid card value` error reply and changes no state. -/
theorem C3_selectCard_error_handling (st : ServerState) (ws : Nat) (card : Option String)
    (player : Player) (room : Room)
    (hp : mapGet st.players ws = some player)
    (hr : mapGet st.rooms player.roomCode = some room) :
    (room.state ≠ RoomPhase.voting → handleSelectCard st ws card = (st, [])) ∧
    (room.state = RoomPhase.voting → isValidCard card = false →
      handleSelectCard st ws card = (st, [OutMsg.errorMsg "Invalid card value"])) := by
  constructor
  · intro hnv
    simp [handleSelectCard, hp, hr, hnv]
  · intro hv hc
    simp [handleSelectCard, hp, hr, hv, hc]

/-- Witness for the amended C3 at concrete states: a `waiting` room drops the
message silently, and a `voting` room rejects the card value `99` with the
typed error. -/
theorem C3_selectCard_error_handling_witness :
    handleSelectCard stC3 1 (some "5") = (stC3, []) ∧
    handleSelectCard stC3v 1 (some "99") = (stC3v, [OutMsg.errorMsg "Invalid card value"]) :=
  ⟨(C3_selectCard_error_handling stC3 1 (some "5") pC3 rC3 rfl rfl).1 (by decide),
   (C3_selectCard_error_handling stC3v 1 (some "99") pC3 rC3v rfl rfl).2 rfl (by decide)⟩

/-- Counterexample to claim C4 as stated: the claim says no host-gated
operation produces a transition other than waiting → voting, voting →
revealed and revealed → waiting, explicitly excluding waiting → revealed.
But the `reveal_cards` handler never inspects the current state: from a
concrete `waiting` room, a host `reveal_cards` moves the room directly to
`revealed`. -/
theorem C4_counterexample :
    rC3.state = RoomPhase.waiting ∧
    (mapGet (handleRevealCards stC3 1).1.rooms "ABCD").map Room.state
      = some RoomPhase.revealed := by decide

/-- Claim C4 (amended): the three host-gated round operations set the room
state unconditionally — `start_round` to `voting`, `reveal_cards` to
`revealed`, `reset_round` to `waiting` — regardless of the current state, and
`close_reveal` changes no state at all.  The waiting → voting → revealed →
waiting cycle is therefore the intended path but is not enforced: transitions
such as waiting → revealed or revealed → voting are single-step reachable. -/
theorem C4_state_transitions (st : ServerState) (ws : Nat) (player : Player) (room : Room)
    (hp : mapGet st.players ws = some player)
    (hh : player.isHost = true)
    (hr : mapGet st.rooms player.roomCode = some room) :
    (mapGet (handleStartRound st ws).1.rooms player.roomCode).map Room.state
        = some RoomPhase.voting ∧
    (mapGet (handleRevealCards st ws).1.rooms player.roomCode).map Room.state
        = some RoomPhase.revealed ∧
    (mapGet (handleResetRound st ws).1.rooms player.roomCode).map Room.state
        = some RoomPhase.waiting ∧
    (handleCloseReveal st ws).1 = st := by
  refine ⟨?_, ?_, ?_, ?_⟩
  · simp [handleStartRound, hp, hr, hh, mapGet_mapSet_self]
  · simp [handleRevealCards, hp, hr, hh, mapGet_mapSet_self]
  · simp [handleResetRound, hp, hr, hh, mapGet_mapSet_self]
  · simp [handleCloseReveal, hp, hh]

/-- Witness for the amended C4 at a concrete `waiting` room with host
connection 1: `start_round` yields `voting`, `reveal_cards` yields `revealed`
(the unguarded waiting → revealed step), `reset_round` yields `waiting`, and
`close_reveal` leaves the state untouched. -/
theorem C4_state_transitions_witness :
    (mapGet (handleStartRound stC3 1).1.rooms "ABCD").map Room.state
        = some RoomPhase.voting ∧
    (mapGet (handleRevealCards stC3 1).1.rooms "ABCD").map Room.state
        = some RoomPhase.revealed ∧
    (mapGet (handleResetRound stC3 1).1.rooms "ABCD").map Room.state
        = some RoomPhase.waiting ∧
    (handleCloseReveal stC3 1).1 = stC3 :=
  C4_state_transitions stC3 1 pC3 rC3 rfl rfl rfl

/-! ## Rate limiter lemmas -/

/-- While every pending timestamp and every arrival lies inside the window of
every other one and the total count stays at or below the limit, the limiter
accepts every message and simply accumulates the timestamps. -/
theorem runLimiter_all_within (arr : List Nat) :
    ∀ tss : List Nat,
      (∀ a ∈ arr, ∀ t ∈ tss, a - t < RATE_LIMIT_WINDOW_MS) →
      (∀ a ∈ arr, ∀ b ∈ arr, a - b < RATE_LIMIT_WINDOW_MS) →
      tss.length + arr.length ≤ RATE_LIMIT_MAX_MESSAGES →
      runLimiter tss arr = (List.replicate arr.length true, tss ++ arr) := by
  induction arr with
  | nil => intro tss _ _ _; simp [runLimiter]
  | cons now rest ih =>
    intro tss h1 h2 hlen
    have hkeep : tss.filter (fun t => now - t < RATE_LIMIT_WINDOW_MS) = tss := by
      rw [List.filter_eq_self]
      intro t ht
      simpa using h1 now (List.mem_cons_self now rest) t ht
    have hlt : tss.length < RATE_LIMIT_MAX_MESSAGES := by
      simp only [List.length_cons] at hlen
      omega
    have hcheck : checkRateLimit now tss = (true, tss ++ [now]) := by
      unfold checkRateLimit
      rw [hkeep, if_neg (by omega)]
    have h1' : ∀ a ∈ rest, ∀ t ∈ tss ++ [now], a - t < RATE_LIMIT_WINDOW_MS := by
      intro a ha t ht
      rcases List.mem_append.mp ht with h | h
      · exact h1 a (List.mem_cons_of_mem now ha) t h
      · have ht' : t = now := by simpa using h
        rw [ht']
        exact h2 a (List.mem_cons_of_mem now ha) now (List.mem_cons_self now rest)
    have h2' : ∀ a ∈ rest, ∀ b ∈ rest, a - b < RATE_LIMIT_WINDOW_MS := by
      intro a ha b hb
      exact h2 a (List.mem_cons_of_mem now ha) b (List.mem_cons_of_mem now hb)
    have hlen' : (tss ++ [now]).length + rest.length ≤ RATE_LIMIT_MAX_MESSAGES := by
      simp only [List.length_append, List.length_cons] at hlen ⊢
      simp only [List.length_nil]
      omega
    have hrest := ih (tss ++ [now]) h1' h2' hlen'
    simp only [runLimiter, hcheck, hrest, List.length_cons, List.replicate_succ]
    simp

/-- Splitting a run of the limiter at an append boundary. -/
theorem runLimiter_append (l1 l2 : List Nat) :
    ∀ tss : List Nat,
      runLimiter tss (l1 ++ l2) =
        ((runLimiter tss l1).1 ++ (runLimiter (runLimiter tss l1).2 l2).1,
          (runLimiter (runLimiter tss l1).2 l2).2) := by
  induction l1 with
  | nil => intro tss; simp [runLimiter]
  | cons now rest ih => intro tss; simp [runLimiter, ih]

/-- Claim C5: an inbound message is accepted iff strictly fewer than
`RATE_LIMIT_MAX_MESSAGES` (20) recorded timestamps lie within the trailing
`RATE_LIMIT_WINDOW_MS` (5000 ms) window at arrival time; and any 21 messages
whose arrival times all lie inside one 5-second window of each other, fed to
a fresh connection, get the first 20 accepted and exactly the 21st rejected
(the rejection being the rate-limit error reply, the connection left open). -/
theorem C5_rate_limiter :
    (∀ (now : Nat) (tss : List Nat),
      ((checkRateLimit now tss).1 = true ↔
        (tss.filter (fun t => now - t < RATE_LIMIT_WINDOW_MS)).length
          < RATE_LIMIT_MAX_MESSAGES)) ∧
    (∀ ts : List Nat, ts.length = 21 →
      (∀ a ∈ ts, ∀ b ∈ ts, a - b < RATE_LIMIT_WINDOW_MS) →
      (runLimiter [] ts).1 = List.replicate 20 true ++ [false]) := by
  constructor
  · intro now tss
    unfold checkRateLimit
    by_cases hc :
        RATE_LIMIT_MAX_MESSAGES ≤
          (tss.filter (fun t => now - t < RATE_LIMIT_WINDOW_MS)).length
    · simp only [if_pos hc]
      constructor
      · intro hfalse
        exact absurd hfalse (by decide)
      · intro hlt
        omega
    · simp only [if_neg hc]
      constructor
      · intro _
        omega
      · intro _
        trivial
  · intro ts hlen hw
    have h20 : (ts.take 20).length = 20 := by
      rw [List.length_take]
      omega
    have hdrop : (ts.drop 20).length = 1 := by
      rw [List.length_drop]
      omega
    obtain ⟨x, hx⟩ := List.length_eq_one.mp hdrop
    have hxts : x ∈ ts := List.drop_subset 20 ts (hx ▸ List.mem_singleton_self x)
    have htake : ∀ a ∈ ts.take 20, a ∈ ts := fun a ha => List.take_subset 20 ts ha
    have hsplit : ts.take 20 ++ [x] = ts := by
      rw [← hx]
      exact List.take_append_drop 20 ts
    have hrun1 : runLimiter [] (ts.take 20) = (List.replicate 20 true, ts.take 20) := by
      have := runLimiter_all_within (ts.take 20) []
        (by intro a _ t ht; simp at ht)
        (by intro a ha b hb; exact hw a (htake a ha) b (htake b hb))
        (by simp [h20, RATE_LIMIT_MAX_MESSAGES])
      simpa [h20] using this
    have hkeep : (ts.take 20).filter (fun t => x - t < RATE_LIMIT_WINDOW_MS) = ts.take 20 := by
      rw [List.filter_eq_self]
      intro t ht
      simpa using hw x hxts t (htake t ht)
    have hcheck : checkRateLimit x (ts.take 20) = (false, ts.take 20) := by
      unfold checkRateLimit
      rw [hkeep, if_pos (by rw [h20]; decide)]
    rw [← hsplit, runLimiter_append, hrun1]
    simp [runLimiter, hcheck]

/-- Witness for C5: the empty-history acceptance criterion at time 0, and 21
messages all arriving at time 0 — the first 20 accepted, the 21st refused. -/
theorem C5_rate_limiter_witness :
    ((checkRateLimit 0 []).1 = true ↔
      (([] : List Nat).filter (fun t => 0 - t < RATE_LIMIT_WINDOW_MS)).length
        < RATE_LIMIT_MAX_MESSAGES) ∧
    (runLimiter [] (List.replicate 21 0)).1 = List.replicate 20 true ++ [false] :=
  ⟨C5_rate_limiter.1 0 [],
   C5_rate_limiter.2 (List.replicate 21 0) (by decide) (by decide)⟩

/-- Claim C10: a rejected message never extends the rate-limit window — when
`checkRateLimit` refuses a message, the stored timestamp list becomes exactly
the old list with expired entries dropped (a sublist of the old list); no new
timestamp is recorded, so rejections do not further penalise the sender, and
a later message is accepted as soon as fewer than 20 recorded timestamps
remain inside its trailing window (the acceptance criterion depends only on
the recorded timestamps). -/
theorem C10_reject_no_extension (now : Nat) (tss : List Nat)
    (h : (checkRateLimit now tss).1 = false) :
    (checkRateLimit now tss).2 = tss.filter (fun t => now - t < RATE_LIMIT_WINDOW_MS) ∧
    ((checkRateLimit now tss).2).Sublist tss := by
  unfold checkRateLimit at h ⊢
  by_cases hc :
      RATE_LIMIT_MAX_MESSAGES ≤
        (tss.filter (fun t => now - t < RATE_LIMIT_WINDOW_MS)).length
  · rw [if_pos hc]
    exact ⟨rfl, List.filter_sublist tss⟩
  · rw [if_neg hc] at h
    simp at h

/-- Witness for C10: twenty stored timestamps at time 0 refuse a new message
at time 0, and the stored list stays exactly those twenty timestamps. -/
theorem C10_reject_no_extension_witness :
    (checkRateLimit 0 (List.replicate 20 0)).2 =
      (List.replicate 20 0).filter (fun t => 0 - t < RATE_LIMIT_WINDOW_MS) ∧
    ((checkRateLimit 0 (List.replicate 20 0)).2).Sublist (List.replicate 20 0) :=
  C10_reject_no_extension 0 (List.replicate 20 0) (by decide)

/-! ## Room-code generation -/

/-- Counterexample to claim C6 as stated: the claim says every character of a
generated code is drawn from a 33-symbol alphabet, but the alphabet in the
source (`ABCDEFGHJKLMNPQRSTUVWXYZ23456789` — 24 letters with I and O dropped
plus the 8 digits 2 to 9) has 32 symbols.  A concrete run with the identity
random stream and no live rooms returns the code `ABCD` after one attempt. -/
theorem C6_counterexample :
    generateRoomCode [] (fun i => i) 1 = some "ABCD" ∧
    ROOM_CODE_CHARS.length = 32 ∧ ROOM_CODE_CHARS.length ≠ 33 := by decide

theorem codeFromRandoms_length (rand : Nat → Nat) :
    (codeFromRandoms rand).toList.length = 4 := by
  simp [codeFromRandoms]

theorem codeFromRandoms_chars (rand : Nat → Nat) :
    (codeFromRandoms rand).toList.all (fun ch => ROOM_CODE_CHARS.contains ch) = true := by
  rw [List.all_eq_true]
  intro ch hch
  simp only [codeFromRandoms, String.toList] at hch
  rcases List.mem_map.mp hch with ⟨i, _, rfl⟩
  have hlt : rand i % ROOM_CODE_CHARS.length < ROOM_CODE_CHARS.length :=
    Nat.mod_lt _ (by decide)
  rw [List.getD_eq_getElem ROOM_CODE_CHARS 'A' hlt]
  exact List.elem_iff.mpr (List.getElem_mem hlt)

/-- Claim C6 (amended): whenever the retrying generator returns a code, that
code has exactly 4 characters, each drawn from the 32-symbol alphabet
`ABCDEFGHJKLMNPQRSTUVWXYZ23456789`, and the code differs from every currently
live room code (a colliding candidate is always retried), so codes are never
reused while a room with that code is live. -/
theorem C6_generateRoomCode (liveCodes : List String) (rand : Nat → Nat) (fuel : Nat)
    (code : String) (h : generateRoomCode liveCodes rand fuel = some code) :
    code.toList.length = 4 ∧
    code.toList.all (fun ch => ROOM_CODE_CHARS.contains ch) = true ∧
    liveCodes.contains code = false := by
  induction fuel generalizing rand with
  | zero => simp [generateRoomCode] at h
  | succ n ih =>
    unfold generateRoomCode at h
    by_cases hc : liveCodes.contains (codeFromRandoms rand) = true
    · rw [if_pos hc] at h
      exact ih _ h
    · rw [if_neg hc] at h
      have hcode : code = codeFromRandoms rand := (Option.some.injEq _ _ ▸ h).symm
      subst hcode
      exact ⟨codeFromRandoms_length rand, codeFromRandoms_chars rand,
        Bool.not_eq_true _ ▸ hc⟩

/-- Witness for the amended C6: with `ABCD` live and the identity random
stream, the first candidate collides, the retry returns `EFGH`, and the
asserted properties hold for it. -/
theorem C6_generateRoomCode_witness :
    "EFGH".toList.length = 4 ∧
    "EFGH".toList.all (fun ch => ROOM_CODE_CHARS.contains ch) = true ∧
    ["ABCD"].contains "EFGH" = false :=
  C6_generateRoomCode ["ABCD"] (fun i => i) 2 "EFGH" (by decide)

/-! ## Name sanitisation lemmas -/

theorem sanitizePipeline_toList (s : String) :
    (sanitizePipeline s).toList =
      ((stripTags (jsTrim s.toList)).filter
        (fun c => ¬ DANGEROUS_CHARS.contains c)).take MAX_NAME_LENGTH := rfl

/-- A successful `sanitizeName` returns exactly the pipeline result. -/
theorem sanitizeName_some_eq (s t : String) (h : sanitizeName (some s) = some t) :
    t = sanitizePipeline s := by
  simp only [sanitizeName] at h
  by_cases hs : s = ""
  · rw [if_pos hs] at h
    exact absurd h (by simp)
  · rw [if_neg hs] at h
    by_cases h1 : 1 ≤ (sanitizePipeline s).length
    · rw [if_pos h1] at h
      exact (Option.some.inj h).symm
    · rw [if_neg h1] at h
      exact absurd h (by simp)

/-- Claim C7: missing or non-string input yields null; otherwise the result
is the input after trimming, tag-substring removal, dangerous-character
removal and truncation to 20 units, with null exactly when that pipeline
result is empty; the result never exceeds 20 units; and a stored name never
equals a raw input that contained a `<` (so a name carrying script tags is
stored stripped, never equal to the raw input). -/
theorem C7_sanitizeName :
    sanitizeName none = none ∧
    (∀ s : String,
      sanitizeName (some s) =
        if (sanitizePipeline s).length = 0 then none else some (sanitizePipeline s)) ∧
    (∀ s t : String, sanitizeName (some s) = some t →
      t.toList.length ≤ MAX_NAME_LENGTH) ∧
    (∀ s t : String, sanitizeName (some s) = some t → '<' ∈ s.toList → t ≠ s) := by
  refine ⟨rfl, ?_, ?_, ?_⟩
  · intro s
    by_cases hs : s = ""
    · subst hs
      decide
    · simp only [sanitizeName]
      rw [if_neg hs]
      by_cases h0 : (sanitizePipeline s).length = 0
      · rw [if_neg (by omega), if_pos h0]
      · rw [if_pos (by omega), if_neg h0]
  · intro s t h
    rw [sanitizeName_some_eq s t h]
    have : (sanitizePipeline s).toList.length ≤ MAX_NAME_LENGTH := by
      rw [sanitizePipeline_toList]
      exact List.length_take_le _ _
    exact this
  · intro s t h hlt
    have ht := sanitizeName_some_eq s t h
    have hnot : '<' ∉ t.toList := by
      rw [ht, sanitizePipeline_toList]
      intro hmem
      have hmem2 := List.mem_of_mem_take hmem
      have hp := List.of_mem_filter hmem2
      simp only [decide_eq_true_eq] at hp
      exact hp (by decide)
    intro he
    rw [he] at hnot
    exact hnot hlt

/-- Witness for C7 on concrete inputs: missing input is rejected; the raw
name `Bob<script>alert(1)</script>` surrounded by spaces sanitises to
`Bobalert1`; and that stored name is not the raw input. -/
theorem C7_sanitizeName_witness :
    sanitizeName none = none ∧
    sanitizeName (some " Bob<script>alert(1)</script> ") = some "Bobalert1" ∧
    "Bobalert1".toList.length ≤ MAX_NAME_LENGTH ∧
    "Bobalert1" ≠ " Bob<script>alert(1)</script> " :=
  ⟨C7_sanitizeName.1,
   (C7_sanitizeName.2.1 " Bob<script>alert(1)</script> ").trans (by decide),
   C7_sanitizeName.2.2.1 " Bob<script>alert(1)</script> " "Bobalert1" (by decide),
   C7_sanitizeName.2.2.2 " Bob<script>alert(1)</script> " "Bobalert1" (by decide) (by decide)⟩

/-! ## The select-card success path -/

/-- The state produced by a successful `select_card`: the sending player gets
`selectedCard` overwritten; in the JS source the mutation happens through the
shared player object referenced from both maps, modelled here by updating
both maps at the connection key. -/
def selectCardState (st : ServerState) (ws : Nat) (card : Option String)
    (player : Player) (room : Room) : ServerState :=
  { rooms :=
      mapSet st.rooms player.roomCode
        { room with players := mapSet room.players ws { player with selectedCard := card } }
    players := mapSet st.players ws { player with selectedCard := card } }

theorem handleSelectCard_success (st : ServerState) (ws : Nat) (card : Option String)
    (player : Player) (room : Room)
    (hp : mapGet st.players ws = some player)
    (hr : mapGet st.rooms player.roomCode = some room)
    (hv : room.state = RoomPhase.voting)
    (hc : isValidCard card = true) :
    handleSelectCard st ws card =
      (selectCardState st ws card player room,
        [OutMsg.playerSelected player.id
          (getRoomState (selectCardState st ws card player room) player.roomCode false)]) := by
  simp [handleSelectCard, selectCardState, hp, hr, hv, hc]

/-- Claim C8 (implicit): the pre-reveal secrecy filter hides even the sender
from themself — after a successful `select_card` in a `voting` room, the
broadcast `player_selected` snapshot (built without vote-visibility) carries
`card = none` for every player including the sender; only the sender's
`hasSelected` boolean reflects the selection.  The last hypothesis mirrors
the JS object aliasing: the room entry at the sending connection is the same
player record as the global map entry. -/
theorem C8_own_card_hidden (st : ServerState) (ws : Nat) (card : Option String)
    (player : Player) (room : Room)
    (hp : mapGet st.players ws = some player)
    (hr : mapGet st.rooms player.roomCode = some room)
    (hv : room.state = RoomPhase.voting)
    (hc : isValidCard card = true)
    (hmem : mapGet room.players ws = some player) :
    (handleSelectCard st ws card).2 =
      [OutMsg.playerSelected player.id
        (getRoomState (handleSelectCard st ws card).1 player.roomCode false)] ∧
    (getRoomState (handleSelectCard st ws card).1 player.roomCode false).map
        (fun s => s.players.all (fun v => v.card == none)) = some true ∧
    (getRoomState (handleSelectCard st ws card).1 player.roomCode false).map
        (fun s => s.players.any
          (fun v => v.id == player.id && v.hasSelected == card.isSome && v.card == none))
      = some true := by
  have heq := handleSelectCard_success st ws card player room hp hr hv hc
  have hroom2 :
      mapGet (selectCardState st ws card player room).rooms player.roomCode =
        some
          { room with
              players := mapSet room.players ws { player with selectedCard := card } } :=
    mapGet_mapSet_self _ _ _
  have hsnap :=
    getRoomState_eq (selectCardState st ws card player room) player.roomCode _ false hroom2
  have hhid :=
    cards_hidden_of_not_revealed
      { room with players := mapSet room.players ws { player with selectedCard := card } }
      (by simp [hv])
  refine ⟨?_, ?_, ?_⟩
  · rw [heq]
  · rw [heq, hsnap]
    simp only [Option.map_some']
    rw [hhid]
  · rw [heq, hsnap]
    simp only [Option.map_some']
    refine congrArg some ?_
    rw [List.any_eq_true]
    refine ⟨playerView room.state false { player with selectedCard := card },
      ?_, by simp [playerView, hv]⟩
    exact List.mem_map_of_mem _
      (mem_mapSet_self room.players ws { player with selectedCard := card })

/-- Witness for C8: in a concrete `voting` room, connection 1 selects the
card `5`; the broadcast snapshot nulls every card and flags the sender as
having selected. -/
theorem C8_own_card_hidden_witness :
    (handleSelectCard stC3v 1 (some "5")).2 =
      [OutMsg.playerSelected pC3.id
        (getRoomState (handleSelectCard stC3v 1 (some "5")).1 pC3.roomCode false)] ∧
    (getRoomState (handleSelectCard stC3v 1 (some "5")).1 pC3.roomCode false).map
        (fun s => s.players.all (fun v => v.card == none)) = some true ∧
    (getRoomState (handleSelectCard stC3v 1 (some "5")).1 pC3.roomCode false).map
        (fun s => s.players.any
          (fun v =>
            v.id == pC3.id && v.hasSelected == (some "5").isSome && v.card == none))
      = some true :=
  C8_own_card_hidden stC3v 1 (some "5") pC3 rC3v rfl rfl rfl (by decide) rfl

/-- Claim C9 (implicit): a player can retract a selection — `isValidCard`
accepts `null`, a `select_card` with a null card in a `voting` room stores
`none` as the selection, and the broadcast snapshot then reports the sender
with `hasSelected = false`. -/
theorem C9_retract_selection (st : ServerState) (ws : Nat)
    (player : Player) (room : Room)
    (hp : mapGet st.players ws = some player)
    (hr : mapGet st.rooms player.roomCode = some room)
    (hv : room.state = RoomPhase.voting)
    (hmem : mapGet room.players ws = some player) :
    isValidCard none = true ∧
    (mapGet (handleSelectCard st ws none).1.rooms player.roomCode).bind
        (fun r => mapGet r.players ws) = some { player with selectedCard := none } ∧
    (getRoomState (handleSelectCard st ws none).1 player.roomCode false).map
        (fun s => s.players.any (fun v => v.id == player.id && v.hasSelected == false))
      = some true := by
  have heq := handleSelectCard_success st ws none player room hp hr hv rfl
  have hroom2 :
      mapGet (selectCardState st ws none player room).rooms player.roomCode =
        some
          { room with
              players := mapSet room.players ws { player with selectedCard := none } } :=
    mapGet_mapSet_self _ _ _
  have hsnap :=
    getRoomState_eq (selectCardState st ws none player room) player.roomCode _ false hroom2
  refine ⟨rfl, ?_, ?_⟩
  · rw [heq]
    show (mapGet (selectCardState st ws none player room).rooms player.roomCode).bind
        (fun r => mapGet r.players ws) = some { player with selectedCard := none }
    rw [hroom2]
    simp only [Option.some_bind]
    exact mapGet_mapSet_self _ _ _
  · rw [heq, hsnap]
    simp only [Option.map_some']
    refine congrArg some ?_
    rw [List.any_eq_true]
    refine ⟨playerView room.state false { player with selectedCard := none },
      ?_, by simp [playerView]⟩
    exact List.mem_map_of_mem _
      (mem_mapSet_self room.players ws { player with selectedCard := none })

/-- Witness for C9: in a concrete `voting` room, connection 1 sends a null
card; the stored selection becomes null and the broadcast snapshot shows the
sender with `hasSelected = false`. -/
theorem C9_retract_selection_witness :
    isValidCard none = true ∧
    (mapGet (handleSelectCard stC3v 1 none).1.rooms pC3.roomCode).bind
        (fun r => mapGet r.players 1) = some { pC3 with selectedCard := none } ∧
    (getRoomState (handleSelectCard stC3v 1 none).1 pC3.roomCode false).map
        (fun s => s.players.any (fun v => v.id == pC3.id && v.hasSelected == false))
      = some true :=
  C9_retract_selection stC3v 1 pC3 rC3v rfl rfl rfl rfl

end PlanningPoker
